import Mathlib

/-!
Verification of the bounded concurrent transfer engine of
`Paneedah/StoreDemoDownloader` (`src/main.py`), via a shallow embedding.

The embedded pieces are:
* `fetch_data` (main.py lines 83-108): catalog retrieval and per-item
  normalisation;
* `update_progress` (lines 111-115): the progress-percent computation;
* `workerRun` (`DownloadWorker.run`, lines 32-58): one streamed HTTP-to-disk
  copy, with every failure mode of the network and of the filesystem made
  explicit in a `WorkerEnv`;
* the scheduler state machine (`start_downloads`, `start_next_download`,
  `on_download_complete`, lines 629-683), with terminal events delivered in an
  arbitrary order;
* `goToStage5` (lines 606-627): cache-folder preparation and construction of
  the download task list.

Python floats that only carry byte counters are embedded as exact rationals
(`ℚ`); machine strings as Lean `String` with ASCII case mapping.
-/

namespace StoreDemo

/-! ## Catalog parser (`fetch_data`, main.py lines 83-108) -/

/-- A raw catalog item as it appears in `data.json`: every field may be
absent, which is what `item.get(key, default)` guards against. -/
structure RawItem where
  title : Option String
  duration : Option String
  filetype : Option String
  size_gb : Option Nat
  url : Option String
deriving Repr, DecidableEq

/-- A processed catalog item, the dictionary built in the loop body of
`fetch_data` (lines 94-102). -/
structure ProcessedItem where
  category : String
  title : String
  duration : String
  filetype : String
  size : String
  size_gb : Nat
  url : String
deriving Repr, DecidableEq

/-- Python `str.upper()` (ASCII), as a character-wise map. -/
def pyUpper (s : String) : String :=
  String.mk (s.data.map Char.toUpper)

/-- Python `str.lower()` (ASCII), as a character-wise map. -/
def pyLower (s : String) : String :=
  String.mk (s.data.map Char.toLower)

/-- Python `str.capitalize()`: first character upper-cased, the rest
lower-cased (ASCII). -/
def pyCapitalize (s : String) : String :=
  String.mk ((s.data.take 1).map Char.toUpper ++ (s.data.drop 1).map Char.toLower)

/-- Body of the inner loop of `fetch_data` (lines 94-102): normalise one raw
item.  `item.get(k, d)` is `Option.getD`; `.upper()` is `pyUpper`;
`f"{item.get('size_gb', 0)}GB"` renders the raw number and appends `"GB"`. -/
def processItem (categoryName : String) (it : RawItem) : ProcessedItem :=
  { category := categoryName
    title := it.title.getD ""
    duration := it.duration.getD ""
    filetype := pyUpper (it.filetype.getD "")
    size := toString (it.size_gb.getD 0) ++ "GB"
    size_gb := it.size_gb.getD 0
    url := it.url.getD "" }

/-- `fetch_data` (lines 83-108), abstracted over the HTTP response: `status`
is `response.status_code` and `data` the decoded JSON object (an association
list of category key to raw item list).  On a 200 response every category key
is capitalized and every item processed; on any other status the function
prints and returns the empty mapping — it raises nothing, which the total
embedding reflects. -/
def fetch_data (status : Nat) (data : List (String × List RawItem)) :
    List (String × List ProcessedItem) :=
  if status = 200 then
    data.map (fun kv => (pyCapitalize kv.1, kv.2.map (processItem (pyCapitalize kv.1))))
  else []

/-! ## Progress reporting (`update_progress`, main.py lines 111-115)

The Python body is `percent_complete = (downloaded_mb / total_mb) * 100`
followed by `progress_bar.setValue(math.floor(percent_complete))`.  There is
no guard: when `total_mb == 0.0` the division raises `ZeroDivisionError`.
The embedding returns the value passed to `setValue`; the display label
(line 115, float formatting only) is elided. -/

def update_progress (downloaded_mb total_mb : ℚ) : Except String Int :=
  if total_mb = 0 then
    Except.error "ZeroDivisionError: float division by zero"
  else
    Except.ok (Int.floor (downloaded_mb / total_mb * 100))

/-! ## The transfer worker (`DownloadWorker.run`, main.py lines 32-58) -/

/-- Everything the outside world decides during one `DownloadWorker.run`:
the HTTP status code of the response, whether `requests.get` itself raises,
the declared `content-length` header, the chunk stream of the response body
(each read either yields a chunk of so many bytes or raises a network error),
whether opening the destination file raises, and which write call (0-indexed),
if any, raises. -/
structure WorkerEnv where
  statusCode : Nat
  getFail : Option String
  contentLength : Option Nat
  body : List (Except String Nat)
  openFail : Option String
  writeFail : Option (Nat × String)
deriving Repr

/-- What one `DownloadWorker.run` produces: the `progress` signal emissions
`(downloaded_mb, total_mb, file_name)`, the `result` signal emissions, and
the destination file (`none` = never created; `some l` = created, holding the
written chunks, by size).  `run` is total: the `try`/`except Exception`
wrapper converts every modelled failure into a `result` emission. -/
structure WorkerOutcome where
  progressEvents : List (ℚ × ℚ × String)
  resultEvents : List String
  file : Option (List Nat)
deriving Repr

/-- `f"Error downloading {self.file_name}: {e}"` (line 58). -/
def errMsg (name e : String) : String :=
  "Error downloading " ++ name ++ ": " ++ e

/-- `f"Finished downloading {self.file_name}"` (line 56). -/
def finMsg (name : String) : String :=
  "Finished downloading " ++ name

/-- Bytes to mebibytes: `n / (1024 * 1024)` (lines 40, 48, 53). -/
def mb (n : Nat) : ℚ := (n : ℚ) / (1024 * 1024)

/-- `response.content` for a chunked stream: reading the whole body either
yields the total byte count or raises the first network error encountered. -/
def contentResult : List (Except String Nat) → Except String Nat
  | [] => Except.ok 0
  | Except.error e :: _ => Except.error e
  | Except.ok n :: rest =>
    match contentResult rest with
    | Except.ok m => Except.ok (n + m)
    | Except.error e => Except.error e

/-- The `for data in response.iter_content(chunk_size=4096)` loop (lines
50-54): per chunk, `dl += len(data)`, then `f.write(data)`, then emit
`progress(dl/2^20, total_mb, name)`.  A network error in the stream or a
raising write aborts into the `except` branch; the file keeps the chunks
already written.  Arguments: remaining stream, bytes so far, index of the
next write call, chunks written, progress events so far. -/
def streamLoop (name : String) (totalMB : ℚ) (wf : Option (Nat × String)) :
    List (Except String Nat) → Nat → Nat → List Nat → List (ℚ × ℚ × String) →
    WorkerOutcome
  | [], _, _, written, evs =>
    { progressEvents := evs, resultEvents := [finMsg name], file := some written }
  | Except.error e :: _, _, _, written, evs =>
    { progressEvents := evs, resultEvents := [errMsg name e], file := some written }
  | Except.ok n :: rest, dl, w, written, evs =>
    match wf with
    | some fe =>
      if fe.1 = w then
        { progressEvents := evs, resultEvents := [errMsg name fe.2],
          file := some written }
      else
        streamLoop name totalMB wf rest (dl + n) (w + 1) (written ++ [n])
          (evs ++ [(mb (dl + n), totalMB, name)])
    | none =>
      streamLoop name totalMB wf rest (dl + n) (w + 1) (written ++ [n])
        (evs ++ [(mb (dl + n), totalMB, name)])

/-- `DownloadWorker.run` (lines 32-58).  `requests.get` may raise; otherwise,
if no `content-length` header is present the whole body is read into memory
(line 40, before the file is opened), written with a single write, and one
progress event with `downloaded == total` is emitted; if a header is present
the body is streamed chunk-wise.  Every raise lands in the
`except Exception` handler, which emits the error `result` (line 58); the
destination file is never deleted.  The HTTP status code is never
inspected. -/
def workerRun (name : String) (env : WorkerEnv) : WorkerOutcome :=
  match env.getFail with
  | some e => { progressEvents := [], resultEvents := [errMsg name e], file := none }
  | none =>
    match env.contentLength with
    | none =>
      match contentResult env.body with
      | Except.error e =>
        { progressEvents := [], resultEvents := [errMsg name e], file := none }
      | Except.ok b =>
        match env.openFail with
        | some e =>
          { progressEvents := [], resultEvents := [errMsg name e], file := none }
        | none =>
          match env.writeFail with
          | some fe =>
            if fe.1 = 0 then
              { progressEvents := [], resultEvents := [errMsg name fe.2],
                file := some [] }
            else
              { progressEvents := [(mb b, mb b, name)],
                resultEvents := [finMsg name], file := some [b] }
          | none =>
            { progressEvents := [(mb b, mb b, name)],
              resultEvents := [finMsg name], file := some [b] }
    | some len =>
      match env.openFail with
      | some e =>
        { progressEvents := [], resultEvents := [errMsg name e], file := none }
      | none => streamLoop name (mb len) env.writeFail env.body 0 0 [] []

/-! ## The scheduler (main.py lines 629-683)

`start_downloads` keeps three pieces of state: `self.download_queue` (the
pending FIFO, popped at index 0), the per-progress-bar workers (one bar per
slot, `bar_index` 0..min(c,L)-1; a bar hosts the worker launched for it until
that worker's terminal `result` event, at which point `on_download_complete`
may launch a replacement on the same bar), and `self.completed_downloads`
checked against `len(self.selected_content_items)`.  `go_to_stage5` builds
`download_urls` by a one-to-one comprehension over
`self.selected_content_items`, so that length equals the task-list length.
A slot is modelled as `Option` of its current task; a terminal event for
slot `i` is modelled by clearing slot `i` (that worker is done) and running
the body of `on_download_complete i`. -/

/-- One pending download, as built on line 625: `(url, file_path, file_name)`. -/
abbrev DownloadEntry := String × String × String

/-- The scheduler's mutable state during stage 5. -/
structure AppState where
  downloadQueue : List DownloadEntry
  slots : List (Option DownloadEntry)
  completedDownloads : Nat
  totalItems : Nat
  stage6Count : Nat
deriving Repr, DecidableEq

/-- Number of slots currently hosting an unfinished worker. -/
def activeCount (s : AppState) : Nat :=
  s.slots.countP Option.isSome

/-- `start_next_download(bar_index)` (lines 657-671): if the queue is empty,
return; otherwise pop the queue head (`pop(0)`) and launch a worker for it on
bar `bar_index`. -/
def startNextDownload (i : Nat) (s : AppState) : AppState :=
  match s.downloadQueue with
  | [] => s
  | t :: rest => { s with downloadQueue := rest, slots := s.slots.set i (some t) }

/-- `on_download_complete(bar_index, message)` (lines 673-683), run when the
worker on bar `bar_index` emits its terminal `result` event: that worker is
done (slot cleared), `start_next_download(bar_index)` refills the bar from
the queue, `completed_downloads` is incremented, and `go_to_stage6()` is
called exactly when the new count equals the selected-item count. -/
def completeEvent (i : Nat) (s : AppState) : AppState :=
  let s1 := startNextDownload i { s with slots := s.slots.set i none }
  let s2 := { s1 with completedDownloads := s1.completedDownloads + 1 }
  if s2.completedDownloads = s2.totalItems then
    { s2 with stage6Count := s2.stage6Count + 1 }
  else s2

/-- `start_downloads(download_urls)` (lines 629-655): reset the queue and the
counter, then `for i in range(min(self.concurrent_downloads,
len(download_urls)))` append a fresh progress bar (a fresh idle slot) and call
`start_next_download(i)`.  `totalItems` is `len(self.selected_content_items)`,
which equals `download_urls.length` by the comprehension on line 625. -/
def startDownloads (tasks : List DownloadEntry) (c : Nat) : AppState :=
  (List.range (min c tasks.length)).foldl
    (fun s i => startNextDownload i { s with slots := s.slots ++ [none] })
    { downloadQueue := tasks, slots := [], completedDownloads := 0,
      totalItems := tasks.length, stage6Count := 0 }

/-- Deliver a sequence of terminal events, each named by the slot it frees.
An event is enabled only for a slot currently hosting a worker (a worker
emits `result` exactly once, so each event consumes one active worker);
an ill-formed trace yields `none`. -/
def runEvents : List Nat → AppState → Option AppState
  | [], s => some s
  | i :: es, s =>
    match s.slots[i]? with
    | some (some _) => runEvents es (completeEvent i s)
    | _ => none

/-! ## Stage-5 preparation (`go_to_stage5`, main.py lines 606-627) -/

/-- The fixed CDN base of line 625. -/
def cdnBase : String := "https://cdn.skyy.cc"

/-- The cache root of line 612. -/
def cacheFolder : String := "cache"

/-- `shutil.rmtree("cache", ignore_errors=True)` followed by recreating the
empty `cache`, `cache/movies`, `cache/music`, `cache/gaming` directories
(lines 612-619): every file under the cache root is deleted.  The filesystem
is modelled as the list of existing file paths. -/
def prepareCache (fs : List String) : List String :=
  fs.filter (fun p => !((cacheFolder ++ "/").data.isPrefixOf p.data))

/-- Task construction of line 625:
`(f"https://cdn.skyy.cc/{item['url']}",
  f"cache/{item['category']}/{item['title']}.mp4", item['title'])` —
the extension is the literal `mp4`, independent of the item's filetype. -/
def buildEntry (it : ProcessedItem) : DownloadEntry :=
  (cdnBase ++ "/" ++ it.url,
   cacheFolder ++ "/" ++ it.category ++ "/" ++ it.title ++ ".mp4",
   it.title)

/-- `go_to_stage5` (lines 606-627), restricted to its cache and task-list
effect: wipe the cache folder, then build one `DownloadEntry` per selected
item (all of which `start_downloads` will then schedule).  The `useCache`
argument is the state of the `self.use_cache` checkbox; `go_to_stage5` never
reads it, which the unused parameter reflects. -/
def goToStage5 (useCache : Bool) (fs : List String)
    (items : List ProcessedItem) : List String × List DownloadEntry :=
  (prepareCache fs, items.map buildEntry)

/-- The run invariant of the scheduler, for concurrency `c` over `N` selected
items: the selected-item count is fixed; the slot count is `min c N`; every
task is pending, active, or counted terminal; and `go_to_stage6` has been
entered exactly once if the counter has reached `N`, never before. -/
def Inv (c N : Nat) (s : AppState) : Prop :=
  s.totalItems = N ∧
  s.slots.length = min c N ∧
  s.completedDownloads + activeCount s + s.downloadQueue.length = N ∧
  s.stage6Count = (if s.completedDownloads = N then 1 else 0)

/-! ## Concrete data used in the closed-form theorems below -/

def entryA : DownloadEntry := ("https://cdn.skyy.cc/a.mp4", "cache/Movies/A.mp4", "A")

def entryB : DownloadEntry := ("https://cdn.skyy.cc/b.mp4", "cache/Movies/B.mp4", "B")

def entryC : DownloadEntry := ("https://cdn.skyy.cc/c.mp4", "cache/Movies/C.mp4", "C")

def entryD : DownloadEntry := ("https://cdn.skyy.cc/d.mp4", "cache/Movies/D.mp4", "D")

def entryE : DownloadEntry := ("https://cdn.skyy.cc/e.mp4", "cache/Movies/E.mp4", "E")

/-- Two queued tasks, for exercising a complete run. -/
def demoTasks : List DownloadEntry := [entryA, entryB]

/-- Five queued tasks A,B,C,D,E, the scenario of the FIFO test property. -/
def fiveTasks : List DownloadEntry := [entryA, entryB, entryC, entryD, entryE]

/-- A response that dies mid-stream after one 4096-byte chunk. -/
def envMidFail : WorkerEnv :=
  { statusCode := 200, getFail := none, contentLength := some 8192,
    body := [Except.ok 4096, Except.error "Connection reset by peer",
      Except.ok 4096],
    openFail := none, writeFail := none }

/-- A response with no `content-length` header and an empty body: the worker
emits the single progress event `(0, 0, name)`. -/
def envEmptyNoLength : WorkerEnv :=
  { statusCode := 200, getFail := none, contentLength := none, body := [],
    openFail := none, writeFail := none }

/-- A 404 response whose 3-byte error page streams without exception. -/
def env404 : WorkerEnv :=
  { statusCode := 404, getFail := none, contentLength := some 3,
    body := [Except.ok 3], openFail := none, writeFail := none }

/-- A selected item whose destination is already cached from a prior run. -/
def cachedItem : ProcessedItem :=
  { category := "Movies", title := "T", duration := "1h", filetype := "MP4",
    size := "2GB", size_gb := 2, url := "t.mp4" }

/-- A selected item whose file type is MKV, not MP4. -/
def mkvItem : ProcessedItem :=
  { category := "Movies", title := "X", duration := "2h", filetype := "MKV",
    size := "4GB", size_gb := 4, url := "x.mkv" }

/-- A raw catalog item with some fields absent. -/
def demoRaw : RawItem :=
  { title := none, duration := some "2h", filetype := some "mkv",
    size_gb := some 4, url := none }

/-- A one-category catalog with a lower-case raw key. -/
def demoCatalog : List (String × List RawItem) := [("movies", [demoRaw])]

/-! ## Auxiliary lemmas -/

lemma countP_set (p : α → Bool) (l : List α) (i : Nat) (x y : α)
    (hx : l[i]? = some x) :
    (l.set i y).countP p + (if p x then 1 else 0) =
      l.countP p + (if p y then 1 else 0) := by
  induction l generalizing i with
  | nil => simp at hx
  | cons a t ih =>
    cases i with
    | zero =>
      have : a = x := by simpa using hx
      subst this
      simp [List.countP_cons]
      omega
    | succ j =>
      have hj : t[j]? = some x := by simpa using hx
      have := ih j hj
      simp only [List.set, List.countP_cons]
      omega

lemma countP_isSome_map_some (l : List α) :
    (l.map some).countP Option.isSome = l.length := by
  induction l with
  | nil => rfl
  | cons a t ih => simp [List.countP_cons, ih]

/-- Closed form for `startDownloads`: the first `min c L` tasks are bound to
slots `0, …, min c L - 1` in order, the rest stay queued. -/
lemma startDownloads_eq (tasks : List DownloadEntry) (c : Nat) :
    startDownloads tasks c =
      { downloadQueue := tasks.drop (min c tasks.length),
        slots := (tasks.take (min c tasks.length)).map some,
        completedDownloads := 0,
        totalItems := tasks.length,
        stage6Count := 0 } := by
  have aux : ∀ k, k ≤ tasks.length →
      (List.range k).foldl
        (fun s i => startNextDownload i { s with slots := s.slots ++ [none] })
        { downloadQueue := tasks, slots := [], completedDownloads := 0,
          totalItems := tasks.length, stage6Count := 0 } =
      { downloadQueue := tasks.drop k, slots := (tasks.take k).map some,
        completedDownloads := 0, totalItems := tasks.length,
        stage6Count := 0 } := by
    intro k hk
    induction k with
    | zero => simp
    | succ j ih =>
      have hj : j < tasks.length := hk
      rw [List.range_succ, List.foldl_append, ih (Nat.le_of_lt hj)]
      have hdrop : tasks.drop j = tasks[j] :: tasks.drop (j + 1) :=
        List.drop_eq_getElem_cons hj
      have hlen : ((tasks.take j).map some).length = j := by
        simp [Nat.min_eq_left (Nat.le_of_lt hj)]
      have hslots : ((tasks.take j).map some ++ [none]).set j (some tasks[j]) =
          (tasks.take (j + 1)).map some := by
        have h2 : (tasks.map some)[j]? = some (some tasks[j]) := by
          rw [List.getElem?_map, List.getElem?_eq_getElem hj]
          rfl
        rw [List.set_append_right _ _ hlen.le, hlen, Nat.sub_self,
          List.set_cons_zero, List.map_take, List.map_take,
          List.take_succ, h2]
        rfl
      simp only [List.foldl_cons, List.foldl_nil, startNextDownload, hdrop, hslots]
  have hn : min c tasks.length ≤ tasks.length := Nat.min_le_right _ _
  exact aux (min c tasks.length) hn

/-- `completeEvent` with an empty pending queue: the freed slot stays idle. -/
lemma completeEvent_eq_nil {i : Nat} {s : AppState}
    (hq : s.downloadQueue = []) :
    completeEvent i s =
      if s.completedDownloads + 1 = s.totalItems then
        { downloadQueue := [], slots := s.slots.set i none,
          completedDownloads := s.completedDownloads + 1,
          totalItems := s.totalItems, stage6Count := s.stage6Count + 1 }
      else
        { downloadQueue := [], slots := s.slots.set i none,
          completedDownloads := s.completedDownloads + 1,
          totalItems := s.totalItems, stage6Count := s.stage6Count } := by
  simp only [completeEvent, startNextDownload, hq]

/-- `completeEvent` with a non-empty pending queue: the queue head moves onto
the freed slot. -/
lemma completeEvent_eq_cons {i : Nat} {s : AppState} {t2 : DownloadEntry}
    {rest : List DownloadEntry} (hq : s.downloadQueue = t2 :: rest) :
    completeEvent i s =
      if s.completedDownloads + 1 = s.totalItems then
        { downloadQueue := rest, slots := (s.slots.set i none).set i (some t2),
          completedDownloads := s.completedDownloads + 1,
          totalItems := s.totalItems, stage6Count := s.stage6Count + 1 }
      else
        { downloadQueue := rest, slots := (s.slots.set i none).set i (some t2),
          completedDownloads := s.completedDownloads + 1,
          totalItems := s.totalItems, stage6Count := s.stage6Count } := by
  simp only [completeEvent, startNextDownload, hq]

lemma inv_start (tasks : List DownloadEntry) (c : Nat) (hne : tasks ≠ []) :
    Inv c tasks.length (startDownloads tasks c) := by
  have hN : tasks.length ≠ 0 := fun h => hne (List.length_eq_zero.mp h)
  have hn : min c tasks.length ≤ tasks.length := Nat.min_le_right _ _
  rw [startDownloads_eq]
  refine ⟨rfl, ?_, ?_, ?_⟩
  · show ((tasks.take (min c tasks.length)).map some).length = min c tasks.length
    rw [List.length_map, List.length_take]
    omega
  · show 0 + ((tasks.take (min c tasks.length)).map some).countP Option.isSome +
      (tasks.drop (min c tasks.length)).length = tasks.length
    rw [countP_isSome_map_some, List.length_take, List.length_drop]
    omega
  · show (0 : Nat) = if (0 : Nat) = tasks.length then 1 else 0
    rw [if_neg (fun h => hN h.symm)]

lemma inv_completeEvent {c N i : Nat} {t : DownloadEntry} {s : AppState}
    (hInv : Inv c N s) (h : s.slots[i]? = some (some t)) :
    Inv c N (completeEvent i s) ∧
      (completeEvent i s).completedDownloads = s.completedDownloads + 1 := by
  obtain ⟨hTot, hLen, hSum, hFire⟩ := hInv
  have hi : i < s.slots.length := by
    rcases List.getElem?_eq_some_iff.mp h with ⟨hi', _⟩; exact hi'
  have hset0 : (s.slots.set i none).countP Option.isSome + 1 =
      s.slots.countP Option.isSome := by
    have hc := countP_set Option.isSome s.slots i (some t) none h
    simpa using hc
  have hact : 1 ≤ activeCount s := by
    have hmem : some t ∈ s.slots := List.getElem?_mem h
    have : 0 < s.slots.countP Option.isSome :=
      List.countP_pos_iff.mpr ⟨some t, hmem, rfl⟩
    exact this
  simp only [activeCount] at hSum hact
  have hlt : s.completedDownloads < N := by omega
  cases hq : s.downloadQueue with
  | nil =>
    rw [hq, List.length_nil] at hSum
    rw [completeEvent_eq_nil hq]
    by_cases hc : s.completedDownloads + 1 = s.totalItems
    · rw [if_pos hc]
      refine ⟨⟨hTot, ?_, ?_, ?_⟩, rfl⟩
      · simpa [List.length_set] using hLen
      · show s.completedDownloads + 1 +
          (s.slots.set i none).countP Option.isSome + List.length [] = N
        simp only [List.length_nil]
        omega
      · show s.stage6Count + 1 = if s.completedDownloads + 1 = N then 1 else 0
        rw [hTot] at hc
        rw [hFire, if_neg (Nat.ne_of_lt hlt), if_pos hc]
    · rw [if_neg hc]
      refine ⟨⟨hTot, ?_, ?_, ?_⟩, rfl⟩
      · simpa [List.length_set] using hLen
      · show s.completedDownloads + 1 +
          (s.slots.set i none).countP Option.isSome + List.length [] = N
        simp only [List.length_nil]
        omega
      · show s.stage6Count = if s.completedDownloads + 1 = N then 1 else 0
        rw [hTot] at hc
        rw [hFire, if_neg (Nat.ne_of_lt hlt), if_neg hc]
  | cons t2 rest =>
    rw [hq, List.length_cons] at hSum
    have hmid : (s.slots.set i none)[i]? = some none :=
      List.getElem?_set_self (by simpa [List.length_set] using hi)
    have hset1 : ((s.slots.set i none).set i (some t2)).countP Option.isSome =
        (s.slots.set i none).countP Option.isSome + 1 := by
      have hc := countP_set Option.isSome (s.slots.set i none) i none (some t2) hmid
      simpa using hc
    rw [completeEvent_eq_cons hq]
    by_cases hc : s.completedDownloads + 1 = s.totalItems
    · rw [if_pos hc]
      refine ⟨⟨hTot, ?_, ?_, ?_⟩, rfl⟩
      · simpa [List.length_set] using hLen
      · show s.completedDownloads + 1 +
          ((s.slots.set i none).set i (some t2)).countP Option.isSome +
            rest.length = N
        omega
      · show s.stage6Count + 1 = if s.completedDownloads + 1 = N then 1 else 0
        rw [hTot] at hc
        rw [hFire, if_neg (Nat.ne_of_lt hlt), if_pos hc]
    · rw [if_neg hc]
      refine ⟨⟨hTot, ?_, ?_, ?_⟩, rfl⟩
      · simpa [List.length_set] using hLen
      · show s.completedDownloads + 1 +
          ((s.slots.set i none).set i (some t2)).countP Option.isSome +
            rest.length = N
        omega
      · show s.stage6Count = if s.completedDownloads + 1 = N then 1 else 0
        rw [hTot] at hc
        rw [hFire, if_neg (Nat.ne_of_lt hlt), if_neg hc]

lemma runEvents_inv {c N : Nat} (es : List Nat) :
    ∀ s s' : AppState, Inv c N s → runEvents es s = some s' →
      Inv c N s' ∧ s'.completedDownloads = s.completedDownloads + es.length := by
  induction es with
  | nil =>
    intro s s' hInv hrun
    cases hrun
    exact ⟨hInv, rfl⟩
  | cons i es ih =>
    intro s s' hInv hrun
    cases hslot : s.slots[i]? with
    | none =>
      simp only [runEvents, hslot] at hrun
      exact Option.noConfusion hrun
    | some o =>
      cases o with
      | none =>
        simp only [runEvents, hslot] at hrun
        exact Option.noConfusion hrun
      | some t =>
        simp only [runEvents, hslot] at hrun
        obtain ⟨hInv', hcd⟩ := inv_completeEvent hInv hslot
        obtain ⟨hI, hc2⟩ := ih _ s' hInv' hrun
        refine ⟨hI, ?_⟩
        rw [hc2, hcd, List.length_cons]
        omega

lemma completeEvent_slots_length (i : Nat) (s : AppState) :
    (completeEvent i s).slots.length = s.slots.length := by
  cases hq : s.downloadQueue with
  | nil =>
    rw [completeEvent_eq_nil hq]
    split <;> simp [List.length_set]
  | cons t2 rest =>
    rw [completeEvent_eq_cons hq]
    split <;> simp [List.length_set]

lemma runEvents_slots_length (es : List Nat) :
    ∀ s s' : AppState, runEvents es s = some s' →
      s'.slots.length = s.slots.length := by
  induction es with
  | nil =>
    intro s s' hrun
    cases hrun
    rfl
  | cons i es ih =>
    intro s s' hrun
    cases hslot : s.slots[i]? with
    | none =>
      simp only [runEvents, hslot] at hrun
      exact Option.noConfusion hrun
    | some o =>
      cases o with
      | none =>
        simp only [runEvents, hslot] at hrun
        exact Option.noConfusion hrun
      | some t =>
        simp only [runEvents, hslot] at hrun
        rw [ih _ s' hrun, completeEvent_slots_length]

/-- The streaming loop emits exactly one `result` event in every case:
stream exhausted, network error mid-stream, or failing write. -/
lemma streamLoop_one_result (name : String) (totalMB : ℚ)
    (wf : Option (Nat × String)) :
    ∀ (body : List (Except String Nat)) (dl w : Nat) (written : List Nat)
      (evs : List (ℚ × ℚ × String)),
      ((streamLoop name totalMB wf body dl w written evs).resultEvents).length
        = 1 := by
  intro body
  induction body with
  | nil => intro dl w written evs; simp [streamLoop]
  | cons hd rest ih =>
    intro dl w written evs
    cases hd with
    | error e => simp [streamLoop]
    | ok n =>
      simp only [streamLoop]
      cases wf with
      | none => exact ih _ _ _ _
      | some fe =>
        by_cases hfe : fe.1 = w
        · simp [hfe]
        · simp only [hfe, if_false]
          exact ih _ _ _ _

/-- If the stream errors after `pre` successfully written chunks and no write
fails, the loop reports the error and the file keeps exactly the chunks
written before the failure — nothing is cleaned up. -/
lemma streamLoop_error_keeps_partial (name : String) (totalMB : ℚ)
    (e : String) (rest : List (Except String Nat)) :
    ∀ (pre : List Nat) (dl w : Nat) (written : List Nat)
      (evs : List (ℚ × ℚ × String)),
      (streamLoop name totalMB none
          (pre.map Except.ok ++ Except.error e :: rest) dl w written
          evs).resultEvents = [errMsg name e] ∧
      (streamLoop name totalMB none
          (pre.map Except.ok ++ Except.error e :: rest) dl w written
          evs).file = some (written ++ pre) := by
  intro pre
  induction pre with
  | nil => intro dl w written evs; simp [streamLoop]
  | cons n pre ih =>
    intro dl w written evs
    simp only [List.map_cons, List.cons_append, streamLoop, List.append_eq]
    have h := ih (dl + n) (w + 1) (written ++ [n])
      (evs ++ [(mb (dl + n), totalMB, name)])
    refine ⟨h.1, ?_⟩
    rw [h.2]
    simp

/-! ## Claim theorems -/

/-- C1: for every run over a non-empty selected task list of size `N` and
every interleaving of terminal events (successes and failures count alike,
one event per worker), the batch-complete transition `go_to_stage6` has fired
exactly once when — and only when — all `N` terminal events have been
delivered: after `k < N` events it has fired zero times, at most `N` events
can ever be delivered, and once it fires no task is active or pending, so no
further terminal event (in particular no second one for an already-terminal
task) exists to re-fire it or to be counted. -/
theorem batch_complete_fires_once (tasks : List DownloadEntry) (c : Nat)
    (es : List Nat) (s' : AppState) (hne : tasks ≠ [])
    (hrun : runEvents es (startDownloads tasks c) = some s') :
    s'.completedDownloads = es.length ∧
    es.length ≤ tasks.length ∧
    s'.stage6Count = (if es.length = tasks.length then 1 else 0) ∧
    (es.length < tasks.length → s'.stage6Count = 0) ∧
    (es.length = tasks.length →
      s'.stage6Count = 1 ∧ activeCount s' = 0 ∧ s'.downloadQueue = []) := by
  obtain ⟨hI, hcd⟩ := runEvents_inv es _ s' (inv_start tasks c hne) hrun
  obtain ⟨hTot, hLen, hSum, hFire⟩ := hI
  have hcd0 : (startDownloads tasks c).completedDownloads = 0 := by
    rw [startDownloads_eq]
  rw [hcd0, Nat.zero_add] at hcd
  refine ⟨hcd, ?_, ?_, ?_, ?_⟩
  · omega
  · rw [hFire, hcd]
  · intro hlt
    rw [hFire, hcd, if_neg (Nat.ne_of_lt hlt)]
  · intro heq
    rw [hcd, heq] at hSum hFire
    refine ⟨by rw [hFire, if_pos rfl], by omega, ?_⟩
    have : s'.downloadQueue.length = 0 := by omega
    exact List.length_eq_zero.mp this

/-- C1 witness: two tasks with concurrency 1; both terminal events arrive on
slot 0; the batch-complete fire count is exactly 1 at the end. -/
theorem batch_complete_fires_once_witness :
    runEvents [0, 0] (startDownloads demoTasks 1) =
      some { downloadQueue := [], slots := [none], completedDownloads := 2,
             totalItems := 2, stage6Count := 1 } ∧
    ({ downloadQueue := [], slots := [none], completedDownloads := 2,
       totalItems := 2, stage6Count := 1 } : AppState).stage6Count = 1 := by
  have hrun : runEvents [0, 0] (startDownloads demoTasks 1) =
      some { downloadQueue := [], slots := [none], completedDownloads := 2,
             totalItems := 2, stage6Count := 1 } := by rfl
  have h := batch_complete_fires_once demoTasks 1 [0, 0] _ (by decide) hrun
  exact ⟨hrun, (h.2.2.2.2 (by rfl)).1⟩

/-- C2: throughout any run with concurrency `c ∈ [1, 15]` over a task list of
length `L`, the number of simultaneously active transfers never exceeds
`min c L`: exactly `min c L` slots are created at start and every terminal
event reassigns at most its own freed slot. -/
theorem active_transfers_bounded (tasks : List DownloadEntry) (c : Nat)
    (es : List Nat) (s' : AppState) (h1 : 1 ≤ c) (h15 : c ≤ 15)
    (hrun : runEvents es (startDownloads tasks c) = some s') :
    activeCount s' ≤ min c tasks.length := by
  have hl := runEvents_slots_length es _ s' hrun
  rw [startDownloads_eq] at hl
  rw [List.length_map, List.length_take] at hl
  have hb : s'.slots.countP Option.isSome ≤ s'.slots.length :=
    List.countP_le_length _
  unfold activeCount
  omega

/-- C2 witness: concurrency 3 over five tasks, one terminal event delivered;
the active count stays within `min 3 5`. -/
theorem active_transfers_bounded_witness :
    (1 ≤ 3 ∧ 3 ≤ 15) ∧
    runEvents [0] (startDownloads fiveTasks 3) =
      some { downloadQueue := [entryE],
             slots := [some entryD, some entryB, some entryC],
             completedDownloads := 1, totalItems := 5, stage6Count := 0 } ∧
    activeCount
        { downloadQueue := [entryE],
          slots := [some entryD, some entryB, some entryC],
          completedDownloads := 1, totalItems := 5, stage6Count := 0 }
      ≤ min 3 fiveTasks.length := by
  have hrun : runEvents [0] (startDownloads fiveTasks 3) =
      some { downloadQueue := [entryE],
             slots := [some entryD, some entryB, some entryC],
             completedDownloads := 1, totalItems := 5, stage6Count := 0 } := by
    rfl
  exact ⟨⟨by decide, by decide⟩, hrun,
    active_transfers_bounded fiveTasks 3 [0] _ (by decide) (by decide) hrun⟩

/-- C4: when the worker on slot `i` reports its terminal event, the scheduler
pops exactly the head of the pending queue (strict FIFO) onto the freed slot;
with an empty queue the slot goes idle and is not reassigned. -/
theorem scheduler_fifo (s : AppState) (i : Nat) (t0 : DownloadEntry)
    (h : s.slots[i]? = some (some t0)) :
    (∀ t rest, s.downloadQueue = t :: rest →
      (completeEvent i s).downloadQueue = rest ∧
      (completeEvent i s).slots[i]? = some (some t)) ∧
    (s.downloadQueue = [] →
      (completeEvent i s).downloadQueue = [] ∧
      (completeEvent i s).slots[i]? = some none) := by
  have hi : i < s.slots.length := by
    rcases List.getElem?_eq_some_iff.mp h with ⟨hi', _⟩; exact hi'
  constructor
  · intro t rest hq
    rw [completeEvent_eq_cons hq]
    constructor
    · split <;> rfl
    · split <;>
        simp [List.getElem?_set_self, List.length_set, hi]
  · intro hq
    rw [completeEvent_eq_nil hq]
    constructor
    · split <;> rfl
    · split <;>
        simp [List.getElem?_set_self, List.length_set, hi]

/-- C4 witness: concurrency 3 with queued tasks A,B,C,D,E; when the slot
running A frees first, the scheduler binds D to it — not E. -/
theorem scheduler_fifo_witness :
    (startDownloads fiveTasks 3).slots[0]? = some (some entryA) ∧
    (startDownloads fiveTasks 3).downloadQueue = entryD :: [entryE] ∧
    (completeEvent 0 (startDownloads fiveTasks 3)).downloadQueue = [entryE] ∧
    (completeEvent 0 (startDownloads fiveTasks 3)).slots[0]? =
      some (some entryD) := by
  have h0 : (startDownloads fiveTasks 3).slots[0]? = some (some entryA) := by
    rfl
  have hq : (startDownloads fiveTasks 3).downloadQueue =
      entryD :: [entryE] := by rfl
  have h := (scheduler_fifo (startDownloads fiveTasks 3) 0 entryA h0).1
    entryD [entryE] hq
  exact ⟨h0, hq, h.1, h.2⟩

/-- C7 counterexample: `start_downloads` contains no validation and the
program defines no `ConfigError`; called on an empty task list it returns
normally (the embedding is total because the source can raise nothing here),
with no slot created and nothing scheduled — it does not fail. -/
theorem start_downloads_empty_no_error :
    startDownloads [] 3 =
      { downloadQueue := [], slots := [], completedDownloads := 0,
        totalItems := 0, stage6Count := 0 } := by
  rfl

/-- C7 amended: starting a run with an empty task list or concurrency 0
raises nothing (no `ConfigError` exists in the program); it merely creates no
slots and schedules no work, leaving the queue untouched. The UI prevents
both inputs (stage 4 requires a selection; the slider minimum is 1). -/
theorem start_downloads_no_validation (tasks : List DownloadEntry) (c : Nat)
    (h : tasks = [] ∨ c = 0) :
    (startDownloads tasks c).slots = [] ∧
    activeCount (startDownloads tasks c) = 0 ∧
    (startDownloads tasks c).downloadQueue = tasks ∧
    (startDownloads tasks c).completedDownloads = 0 ∧
    (startDownloads tasks c).stage6Count = 0 := by
  have hmin : min c tasks.length = 0 := by
    rcases h with h | h <;> simp [h]
  rw [startDownloads_eq, hmin]
  simp [activeCount]

/-- C7 amended witness: the empty task list at concurrency 3. -/
theorem start_downloads_no_validation_witness :
    (([] : List DownloadEntry) = [] ∨ (3 : Nat) = 0) ∧
    (startDownloads [] 3).slots = [] ∧
    activeCount (startDownloads [] 3) = 0 := by
  have h := start_downloads_no_validation [] 3 (Or.inl rfl)
  exact ⟨Or.inl rfl, h.1, h.2.1⟩

/-- C3: `DownloadWorker.run` never propagates an exception across the task
boundary: for every environment (network failure on connect or mid-stream,
missing or present content-length, failing open or write) it emits exactly
one terminal `result` event; a connect failure is reported with its error
detail; and a mid-stream network failure after `pre` written chunks reports
the error detail while the partially written destination file keeps exactly
those chunks — no automatic cleanup. -/
theorem worker_never_throws (name : String) (env : WorkerEnv) :
    (workerRun name env).resultEvents.length = 1 ∧
    (∀ e, env.getFail = some e →
      workerRun name env =
        { progressEvents := [], resultEvents := [errMsg name e],
          file := none }) ∧
    (∀ len e pre rest, env.getFail = none → env.contentLength = some len →
      env.openFail = none → env.writeFail = none →
      env.body = pre.map Except.ok ++ Except.error e :: rest →
      (workerRun name env).resultEvents = [errMsg name e] ∧
      (workerRun name env).file = some pre) := by
  refine ⟨?_, ?_, ?_⟩
  · cases hg : env.getFail with
    | some e => simp [workerRun, hg]
    | none =>
      cases hcl : env.contentLength with
      | none =>
        cases hcr : contentResult env.body with
        | error e => simp [workerRun, hg, hcl, hcr]
        | ok b =>
          cases ho : env.openFail with
          | some e => simp [workerRun, hg, hcl, hcr, ho]
          | none =>
            cases hw : env.writeFail with
            | some fe =>
              by_cases h0 : fe.1 = 0 <;>
                simp [workerRun, hg, hcl, hcr, ho, hw, h0]
            | none => simp [workerRun, hg, hcl, hcr, ho, hw]
      | some len =>
        cases ho : env.openFail with
        | some e => simp [workerRun, hg, hcl, ho]
        | none =>
          simp only [workerRun, hg, hcl, ho]
          exact streamLoop_one_result name (mb len) env.writeFail env.body 0 0 [] []
  · intro e hg
    simp [workerRun, hg]
  · intro len e pre rest hg hcl ho hw hbody
    have h := streamLoop_error_keeps_partial name (mb len) e rest pre 0 0 [] []
    constructor
    · simp only [workerRun, hg, hcl, ho, hw, hbody]
      exact h.1
    · simp only [workerRun, hg, hcl, ho, hw, hbody]
      rw [h.2]
      simp

/-- C3 witness: a stream that dies after one 4096-byte chunk yields exactly
one terminal event, carrying the error detail, and the partial file keeps
the one written chunk. -/
theorem worker_never_throws_witness :
    (workerRun "Movie" envMidFail).resultEvents.length = 1 ∧
    (workerRun "Movie" envMidFail).resultEvents =
      [errMsg "Movie" "Connection reset by peer"] ∧
    (workerRun "Movie" envMidFail).file = some [4096] := by
  have h := worker_never_throws "Movie" envMidFail
  have h3 := h.2.2 8192 "Connection reset by peer" [4096] [Except.ok 4096]
    rfl rfl rfl rfl rfl
  exact ⟨h.1, h3.1, h3.2⟩

/-- C5 counterexample: the progress computation is not guarded against a zero
total.  A declared-lengthless response with an empty body makes the worker
emit the progress event `(0, 0, name)` (main.py line 44), and
`update_progress` on that event raises `ZeroDivisionError` instead of
reporting 100%. -/
theorem update_progress_zero_total_unguarded :
    (workerRun "Empty" envEmptyNoLength).progressEvents = [(0, 0, "Empty")] ∧
    update_progress 0 0 =
      Except.error "ZeroDivisionError: float division by zero" := by
  constructor
  · have h0 : mb 0 = 0 := by norm_num [mb]
    simp [workerRun, envEmptyNoLength, contentResult, h0]
  · rfl

/-- C5 amended: whenever `totalBytes` is non-zero the computation succeeds
and the value set on the bar is `floor(bytesTransferred / totalBytes * 100)`;
the `totalBytes == 0` case is not guarded and raises `ZeroDivisionError`
(see the counterexample), and it is reachable via a zero-length body with no
`content-length` header. -/
theorem update_progress_nonzero_total (d t : Nat) (ht : t ≠ 0) :
    update_progress (mb d) (mb t) =
      Except.ok (Int.floor ((d : ℚ) / (t : ℚ) * 100)) := by
  have ht2 : (t : ℚ) ≠ 0 := Nat.cast_ne_zero.mpr ht
  have hM : (1024 * 1024 : ℚ) ≠ 0 := by norm_num
  have hmb : mb t ≠ 0 := by
    rw [mb]
    exact div_ne_zero ht2 hM
  rw [update_progress, if_neg hmb]
  have key : mb d / mb t = (d : ℚ) / (t : ℚ) := by
    rw [mb, mb]
    field_simp
  rw [key]

/-- C5 amended witness: 512 of 1024 bytes transferred is reported as 50%. -/
theorem update_progress_nonzero_total_witness :
    (1024 : Nat) ≠ 0 ∧
    update_progress (mb 512) (mb 1024) = Except.ok 50 := by
  have h := update_progress_nonzero_total 512 1024 (by norm_num)
  refine ⟨by norm_num, ?_⟩
  rw [h]
  norm_num

/-- C6 counterexample: a 404 response whose body streams cleanly is recorded
as a successful download — the worker emits the success terminal event and
writes the error page to the destination, so a non-2xx response is not
reported as a terminal failure. -/
theorem non2xx_recorded_success :
    env404.statusCode = 404 ∧
    (workerRun "NotFound" env404).resultEvents = [finMsg "NotFound"] ∧
    (workerRun "NotFound" env404).file = some [3] := by
  refine ⟨rfl, ?_, ?_⟩ <;> rfl

/-- C6 amended: `DownloadWorker.run` never inspects the HTTP status code —
its entire outcome (progress events, terminal event, file contents) is
invariant under changing the status code, so a non-2xx response is treated
exactly like a 2xx one and, absent an exception while streaming, is recorded
as a success. -/
theorem workerRun_ignores_status (name : String) (env : WorkerEnv)
    (s1 : Nat) :
    workerRun name { env with statusCode := s1 } = workerRun name env := by
  cases env
  rfl

/-- C8: the `use_cache` checkbox is never consulted and the cache is wiped at
the start of every run.  With cache use enabled and item T's destination
`cache/Movies/T.mp4` already present, `go_to_stage5` deletes the cached file
and still enqueues T for a full network download (so `shouldSkip` behaviour
does not exist in the code); moreover the output is identical with the
checkbox off. -/
theorem cache_flag_never_consulted :
    goToStage5 true ["cache/Movies/T.mp4"] [cachedItem] =
      ([], [("https://cdn.skyy.cc/t.mp4", "cache/Movies/T.mp4", "T")]) ∧
    (∀ useCache fs items,
      goToStage5 useCache fs items = goToStage5 true fs items) := by
  constructor
  · decide
  · intro useCache fs items
    rfl

/-- C9 counterexample: for an item whose file type is MKV the constructed
destination path still ends in the hard-coded `.mp4`, not in the item's file
type (in either case convention). -/
theorem dest_extension_not_filetype :
    (goToStage5 true [] [mkvItem]).2 =
      [("https://cdn.skyy.cc/x.mkv", "cache/Movies/X.mp4", "X")] ∧
    mkvItem.filetype = "MKV" ∧
    "cache/Movies/X.mp4" ≠
      cacheFolder ++ "/" ++ mkvItem.category ++ "/" ++ mkvItem.title ++
        "." ++ mkvItem.filetype ∧
    "cache/Movies/X.mp4" ≠
      cacheFolder ++ "/" ++ mkvItem.category ++ "/" ++ mkvItem.title ++
        "." ++ pyLower mkvItem.filetype := by
  refine ⟨rfl, rfl, ?_, ?_⟩ <;> decide

/-- C9 amended: for every selected item the constructed transfer task has
`sourceLocator = "https://cdn.skyy.cc/" ++ item.url` as claimed, but its
`destinationPath` is `cache/<category>/<title>.mp4` with the literal `mp4`
extension regardless of the item's file type. -/
theorem transfer_task_construction (u : Bool) (fs : List String)
    (items : List ProcessedItem) (k : Nat) (it : ProcessedItem)
    (h : items[k]? = some it) :
    ((goToStage5 u fs items).2)[k]? =
      some (cdnBase ++ "/" ++ it.url,
        cacheFolder ++ "/" ++ it.category ++ "/" ++ it.title ++ ".mp4",
        it.title) := by
  simp [goToStage5, buildEntry, List.getElem?_map, h]

/-- C9 amended witness: the MKV item, at position 0 of the selection. -/
theorem transfer_task_construction_witness :
    ([mkvItem][0]? = some mkvItem) ∧
    ((goToStage5 true [] [mkvItem]).2)[0]? =
      some (cdnBase ++ "/" ++ mkvItem.url,
        cacheFolder ++ "/" ++ mkvItem.category ++ "/" ++ mkvItem.title ++
          ".mp4",
        mkvItem.title) :=
  ⟨rfl, transfer_task_construction true [] [mkvItem] 0 mkvItem rfl⟩

/-- C10: on a 200 response every raw category key appears capitalized with
its items processed; each processed item carries the capitalized category,
the upper-cased filetype, `size = toString size_gb ++ "GB"`, and the
documented defaults for absent fields; on any non-200 status the parser
returns the empty mapping (and raises nothing — the embedding is total). -/
theorem fetch_data_normalisation (status : Nat)
    (data : List (String × List RawItem)) (k : String)
    (items : List RawItem) (r : RawItem) :
    (status ≠ 200 → fetch_data status data = []) ∧
    ((k, items) ∈ data →
      (pyCapitalize k, items.map (processItem (pyCapitalize k))) ∈
        fetch_data 200 data) ∧
    ((processItem (pyCapitalize k) r).category = pyCapitalize k ∧
     (processItem (pyCapitalize k) r).filetype = pyUpper (r.filetype.getD "") ∧
     (processItem (pyCapitalize k) r).size =
        toString (r.size_gb.getD 0) ++ "GB" ∧
     (processItem (pyCapitalize k) r).size_gb = r.size_gb.getD 0 ∧
     (r.title = none → (processItem (pyCapitalize k) r).title = "") ∧
     (r.duration = none → (processItem (pyCapitalize k) r).duration = "") ∧
     (r.filetype = none → (processItem (pyCapitalize k) r).filetype = "") ∧
     (r.url = none → (processItem (pyCapitalize k) r).url = "") ∧
     (r.size_gb = none → (processItem (pyCapitalize k) r).size_gb = 0)) := by
  refine ⟨?_, ?_, rfl, rfl, rfl, rfl, ?_, ?_, ?_, ?_, ?_⟩
  · intro h
    simp [fetch_data, h]
  · intro hmem
    simp only [fetch_data, if_pos rfl]
    exact List.mem_map.mpr ⟨(k, items), hmem, rfl⟩
  all_goals intro h
  all_goals simp only [processItem, h, Option.getD]
  all_goals decide

/-- C10 witness: a catalog with raw key `"movies"` and one raw item with
absent title and url, filetype `"mkv"`, `size_gb = 4`; and a 404 response. -/
theorem fetch_data_normalisation_witness :
    fetch_data 404 demoCatalog = [] ∧
    (pyCapitalize "movies", [demoRaw].map (processItem (pyCapitalize "movies")))
      ∈ fetch_data 200 demoCatalog ∧
    (processItem (pyCapitalize "movies") demoRaw).filetype = "MKV" ∧
    (processItem (pyCapitalize "movies") demoRaw).size = "4GB" ∧
    (processItem (pyCapitalize "movies") demoRaw).title = "" := by
  have h404 := fetch_data_normalisation 404 demoCatalog "movies" [demoRaw] demoRaw
  have h200 := fetch_data_normalisation 200 demoCatalog "movies" [demoRaw] demoRaw
  refine ⟨h404.1 (by norm_num), h200.2.1 (by simp [demoCatalog]), ?_, ?_, ?_⟩
  · rw [h200.2.2.2.1]
    decide
  · rw [h200.2.2.2.2.1]
    decide
  · exact h200.2.2.2.2.2.2.1 rfl

end StoreDemo
